import Mathlib

/-!
Verification of the CARLA-style `LocalPlanner`
(`agents/navigation/local_planner.py`).

The planner's data model and operations are embedded shallowly:

* floating-point yaw/position/speed values are modelled as exact rationals
  (`ℚ`); Python's float `%` (floored modulus) is `fmod` below;
* Python's in-place `deque(maxlen=…)` becomes a `List` together with
  `dequeAppend`, which drops the head when the deque is full;
* code that can raise (`deque[-1]` on an empty deque, `random.choice([])`,
  `list[0]` on an empty list) is modelled with `Option`, `none` standing
  for the raised exception;
* `random.choice` consumes one value of an oracle stream `rnd : ℕ → ℕ`,
  the chosen index being the oracle value modulo the list length;
* the external collaborators (CARLA map, vehicle, waypoint graph, PID/MPC
  controller) are parameters gathered in `WaypointSource` / `StepEnv`;
* the strict comparison `dist(a, b) < r` on Euclidean distances is encoded
  without square roots as `0 < r ∧ dist2 a b < r * r`, which is equivalent
  for the square of the distance `dist2`.
-/

namespace LocalPlannerSpec

/-- The `RoadOption` enum of the source: possible topological
configurations when moving from one lane segment to another. -/
inductive RoadOption where
  | VOID
  | LEFT
  | RIGHT
  | STRAIGHT
  | LANEFOLLOW
  | CHANGELANELEFT
  | CHANGELANERIGHT
  deriving DecidableEq

/-- A 2-D location, the `x`/`y` of `carla.Location`. -/
structure Location where
  x : ℚ
  y : ℚ
  deriving DecidableEq

/-- The rotation part of a transform; only `yaw` is used by the planner. -/
structure Rotation where
  yaw : ℚ
  deriving DecidableEq

/-- A transform: location plus rotation, as read from a waypoint. -/
structure Transform where
  location : Location
  rotation : Rotation
  deriving DecidableEq

/-- A map waypoint; the planner only reads its transform and feeds it back
to the waypoint graph to query successors. -/
structure Waypoint where
  transform : Transform
  deriving DecidableEq

/-- A queue entry: `(waypoint, RoadOption)` pair, as stored in
`_waypoints_queue` and `waypoint_buffer`. -/
abbrev Entry := Waypoint × RoadOption

/-- `carla.VehicleControl` restricted to the fields the planner sets or
returns. -/
structure VehicleControl where
  steer : ℚ
  throttle : ℚ
  brake : ℚ
  hand_brake : Bool
  manual_gear_shift : Bool
  deriving DecidableEq

/-- Python's float modulus (floored): `a % b = a - b * ⌊a / b⌋`. -/
def fmod (a b : ℚ) : ℚ := a - b * ⌊a / b⌋

/-- The angle difference computed by `_compute_connection`:
`(next.yaw % 360 - current.yaw % 360) % 180`. -/
def diffAngle (current_waypoint next_waypoint : Waypoint) : ℚ :=
  fmod (fmod next_waypoint.transform.rotation.yaw 360 -
        fmod current_waypoint.transform.rotation.yaw 360) 180

/-- `_compute_connection`: classify the topological connection between the
active waypoint and a target waypoint from the yaw difference. -/
def computeConnection (current_waypoint next_waypoint : Waypoint) : RoadOption :=
  if diffAngle current_waypoint next_waypoint < 1 then RoadOption.STRAIGHT
  else if 90 < diffAngle current_waypoint next_waypoint then RoadOption.LEFT
  else RoadOption.RIGHT

/-- The external waypoint graph: `waypoint.next(distance)` returns the list
of waypoints reachable within `distance`, modelled as a pure query. -/
structure WaypointSource where
  next : Waypoint → ℚ → List Waypoint

/-- Python's `list.index`: index of the first occurrence; an absent element
yields the list length (so that a subsequent lookup fails, matching the
`ValueError` the source would raise). -/
def indexOfOption (o : RoadOption) : List RoadOption → ℕ
  | [] => 0
  | x :: rest => if x = o then 0 else indexOfOption o rest + 1

/-- `_retrieve_options`: for each candidate, look 3.0 units past it
(`next_waypoint.next(3.0)[0]`, an `IndexError` — `none` — when that lookup
is empty) and classify the connection from the current waypoint. -/
def retrieveOptions (src : WaypointSource) (current_waypoint : Waypoint) :
    List Waypoint → Option (List RoadOption)
  | [] => some []
  | next_waypoint :: rest =>
    match (src.next next_waypoint 3).head? with
    | none => none
    | some next_next_waypoint =>
      match retrieveOptions src current_waypoint rest with
      | none => none
      | some options =>
        some (computeConnection current_waypoint next_next_waypoint :: options)

/-- `maxlen` of `_waypoints_queue`: `deque(maxlen=20000)`. -/
def QUEUE_MAXLEN : ℕ := 20000

/-- Appending to a Python `deque(maxlen=m)`: when the deque is full the
leftmost (oldest) element is silently discarded. -/
def dequeAppend (maxlen : ℕ) (q : List Entry) (e : Entry) : List Entry :=
  if q.length < maxlen then q ++ [e] else q.drop 1 ++ [e]

/-- One iteration of the `_compute_next_waypoints` loop: peek the last
queue entry (`IndexError` on an empty queue), query candidates within the
sampling radius; one candidate is `LANEFOLLOW`, otherwise
`random.choice` over the classified options (`IndexError` — `none` — when
there are zero candidates) and indexing by `list.index` of the chosen
option pick the appended entry. -/
def computeNextWaypointsStep (src : WaypointSource) (sampling_radius : ℚ)
    (r : ℕ) (q : List Entry) : Option (List Entry) :=
  match q.getLast? with
  | none => none
  | some last =>
    let next_waypoints := src.next last.1 sampling_radius
    if next_waypoints.length = 1 then
      match next_waypoints.get? 0 with
      | none => none
      | some next_waypoint =>
        some (dequeAppend QUEUE_MAXLEN q (next_waypoint, RoadOption.LANEFOLLOW))
    else
      match retrieveOptions src last.1 next_waypoints with
      | none => none
      | some road_options_list =>
        match road_options_list.get? (r % road_options_list.length) with
        | none => none
        | some road_option =>
          match next_waypoints.get? (indexOfOption road_option road_options_list) with
          | none => none
          | some next_waypoint =>
            some (dequeAppend QUEUE_MAXLEN q (next_waypoint, road_option))

/-- The `for _ in range(k)` loop of `_compute_next_waypoints`; `i` counts
the iterations and feeds the randomness oracle. -/
def computeLoop (src : WaypointSource) (sampling_radius : ℚ) (rnd : ℕ → ℕ) :
    ℕ → ℕ → List Entry → Option (List Entry)
  | 0, _, q => some q
  | n + 1, i, q =>
    match computeNextWaypointsStep src sampling_radius (rnd i) q with
    | none => none
    | some q2 => computeLoop src sampling_radius rnd n (i + 1) q2

/-- `_compute_next_waypoints(k)`: clamp `k` to the available capacity
(`min(maxlen - len(queue), k)`) and run the loop. -/
def computeNextWaypoints (src : WaypointSource) (sampling_radius : ℚ)
    (rnd : ℕ → ℕ) (q : List Entry) (k : ℕ) : Option (List Entry) :=
  computeLoop src sampling_radius rnd (min (QUEUE_MAXLEN - q.length) k) 0 q

/-- `self._buffer_size = 20`. -/
def BUFFER_SIZE : ℕ := 20

/-- `MIN_DISTANCE_PERCENTAGE = 0.7`. -/
def MIN_DISTANCE_PERCENTAGE : ℚ := 7 / 10

/-- The mutable planner attributes the claims are about. `globalPlan`
mirrors `_global_plan` (`true` = EXTERNAL mode, `false` = AUTONOMOUS). -/
structure PlannerState where
  targetSpeed : ℚ
  samplingRadius : ℚ
  minDistance : ℚ
  waypointsQueue : List Entry
  waypointBuffer : List Entry
  targetRoadOption : RoadOption
  globalPlan : Bool
  deriving DecidableEq

/-- `set_speed`: store a new target cruise speed. -/
def setSpeed (st : PlannerState) (speed : ℚ) : PlannerState :=
  { st with targetSpeed := speed }

/-- `set_local_plan`: clear the waypoint queue (only), append the plan's
entries, tag `CHANGELANELEFT`, leave EXTERNAL mode. -/
def setLocalPlan (st : PlannerState) (local_plan : List Entry) : PlannerState :=
  { st with
      waypointsQueue := local_plan.foldl (dequeAppend QUEUE_MAXLEN) [],
      targetRoadOption := RoadOption.CHANGELANELEFT,
      globalPlan := false }

/-- `add_global_plan`: append the plan's entries to the queue (deque
semantics, so a full queue silently drops its head), tag `LANEFOLLOW`,
enter EXTERNAL mode. -/
def addGlobalPlan (st : PlannerState) (current_plan : List Entry) : PlannerState :=
  { st with
      waypointsQueue := current_plan.foldl (dequeAppend QUEUE_MAXLEN) st.waypointsQueue,
      targetRoadOption := RoadOption.LANEFOLLOW,
      globalPlan := true }

/-- `set_global_plan`: clear the queue (only), then `add_global_plan`. -/
def setGlobalPlan (st : PlannerState) (current_plan : List Entry) : PlannerState :=
  let st2 := addGlobalPlan { st with waypointsQueue := [] } current_plan
  { st2 with globalPlan := true }

/-- `self._target_speed * 1 / 3.6`, the sampling radius computed by
`init_controller`. -/
def initRadius (target_speed : ℚ) : ℚ := target_speed * 1 / (36 / 10)

/-- `self._sampling_radius * MIN_DISTANCE_PERCENTAGE`. -/
def initMinDistance (target_speed : ℚ) : ℚ :=
  initRadius target_speed * MIN_DISTANCE_PERCENTAGE

/-- `init_controller`: compute the sampling radius and minimum distance
from the (possibly overridden) target speed, seed the queue with one
waypoint ahead of the vehicle (`next(...)[0]`, an `IndexError` — `none` —
when the lookup is empty), and fill the queue with
`_compute_next_waypoints(k=200)`. -/
def initController (src : WaypointSource) (rnd : ℕ → ℕ)
    (current_waypoint : Waypoint) (optTargetSpeed : Option ℚ) :
    Option PlannerState :=
  let target_speed := optTargetSpeed.getD 30
  let sampling_radius := initRadius target_speed
  let min_distance := initMinDistance target_speed
  match (src.next current_waypoint sampling_radius).head? with
  | none => none
  | some w0 =>
    match computeNextWaypoints src sampling_radius rnd
        [(w0, RoadOption.LANEFOLLOW)] 200 with
    | none => none
    | some q =>
      some { targetSpeed := target_speed,
             samplingRadius := sampling_radius,
             minDistance := min_distance,
             waypointsQueue := q,
             waypointBuffer := [],
             targetRoadOption := RoadOption.LANEFOLLOW,
             globalPlan := false }

/-- Squared Euclidean distance between two 2-D locations. -/
def dist2 (a b : Location) : ℚ := (a.x - b.x) ^ 2 + (a.y - b.y) ^ 2

/-- The strict comparison `location.distance(other) < r` (also
`distance_vehicle(wp, transform) < r` of `agents.tools.misc`, an external
helper not under `src/`, which computes the same planar Euclidean
distance), encoded on squares: `sqrt d2 < r ↔ 0 < r ∧ d2 < r²`. -/
def withinMinDistance (w : Waypoint) (loc : Location) (min_distance : ℚ) : Bool :=
  decide (0 < min_distance ∧ dist2 w.transform.location loc < min_distance * min_distance)

/-- The `for i, (waypoint, _) in enumerate(self.waypoint_buffer)` loop of
`update_buffer`: running `max_index` accumulator (`none` = the initial
`-1`), `i` the index of the head of the remaining list. -/
def lastWithinIndexAux (loc : Location) (min_distance : ℚ) :
    List Entry → ℕ → Option ℕ → Option ℕ
  | [], _, acc => acc
  | e :: rest, i, acc =>
    lastWithinIndexAux loc min_distance rest (i + 1)
      (if withinMinDistance e.1 loc min_distance then some i else acc)

/-- `max_index` at the end of the `update_buffer` scan. -/
def lastWithinIndex (buffer : List Entry) (loc : Location) (min_distance : ℚ) :
    Option ℕ :=
  lastWithinIndexAux loc min_distance buffer 0 none

/-- `update_buffer`: pop everything up to and including the last buffer
index whose waypoint is within `min_distance` of the vehicle; pop nothing
when no index qualifies. -/
def updateBuffer (buffer : List Entry) (loc : Location) (min_distance : ℚ) :
    List Entry :=
  match lastWithinIndex buffer loc min_distance with
  | none => buffer
  | some max_index => buffer.drop (max_index + 1)

/-- `done()`: the queue-emptiness test short-circuits the `all(...)`,
whose comprehension ranges over `self._waypoints_queue` itself (not the
buffer) and hence is only ever evaluated on an empty list. (The
comprehension passes the `(waypoint, option)` tuples straight to
`distance_vehicle`; the waypoint component is used here, the choice being
immaterial on the empty list.) -/
def doneCheck (st : PlannerState) (vehicleLoc : Location) : Bool :=
  decide (st.waypointsQueue.length = 0) &&
    st.waypointsQueue.all (fun wp => withinMinDistance wp.1 vehicleLoc st.minDistance)

/-- The external controller (`VehiclePIDController` / `MPC`):
`run_step(target_speed, waypoints, target_waypoint, current_waypoint)`. -/
structure Controller where
  runStep : ℚ → List (ℚ × ℚ × ℚ) → Waypoint → Waypoint → VehicleControl

/-- The external collaborators consulted by one `run_step` call: the
waypoint graph, the randomness oracle, the controller, the map's
`get_waypoint` query, and the vehicle's current location. -/
structure StepEnv where
  source : WaypointSource
  rnd : ℕ → ℕ
  controller : Controller
  mapWaypointAt : Location → Waypoint
  vehicleLocation : Location

/-- The emergency control built by `run_step` on an empty queue:
steer 0, throttle 0, brake 1, no hand brake, no manual gear shift. -/
def hardStop : VehicleControl :=
  { steer := 0, throttle := 0, brake := 1,
    hand_brake := false, manual_gear_shift := false }

/-- The buffering step of `run_step`: pop from the queue head into the
buffer until the buffer holds `BUFFER_SIZE` entries or the queue empties;
returns (new buffer, new queue). -/
def bufferFill (buffer queue : List Entry) : List Entry × List Entry :=
  let n := min (BUFFER_SIZE - buffer.length) queue.length
  (buffer ++ queue.take n, queue.drop n)

/-- The `[[x, y, yaw] for points in _waypoints]` window handed to the
controller. -/
def windowOf (l : List Entry) : List (ℚ × ℚ × ℚ) :=
  l.map (fun p =>
    (p.1.transform.location.x, p.1.transform.location.y, p.1.transform.rotation.yaw))

/-- The replenish phase of `run_step`: when not in EXTERNAL mode and the
queue is below `int(maxlen * 0.5)` entries, `_compute_next_waypoints(k=100)`. -/
def replenishPhase (env : StepEnv) (st : PlannerState) : Option PlannerState :=
  if st.globalPlan = false ∧ st.waypointsQueue.length < QUEUE_MAXLEN / 2 then
    (computeNextWaypoints env.source st.samplingRadius env.rnd
        st.waypointsQueue 100).map (fun q => { st with waypointsQueue := q })
  else some st

/-- The non-empty-queue tail of `run_step`: fill the buffer, read the
current waypoint from the map, take the buffer head as target
(`waypoint_buffer[0]`, `none` on the impossible empty case), run the
controller with the buffer window and the configured speed unless
overridden, then purge the buffer. -/
def controlPhase (env : StepEnv) (st : PlannerState) (targetSpeed : Option ℚ) :
    Option (PlannerState × VehicleControl) :=
  let fb := bufferFill st.waypointBuffer st.waypointsQueue
  let current_waypoint := env.mapWaypointAt env.vehicleLocation
  match fb.1.head? with
  | none => none
  | some target =>
    let speed := targetSpeed.getD st.targetSpeed
    let control := env.controller.runStep speed (windowOf fb.1) target.1 current_waypoint
    some ({ st with
              waypointsQueue := fb.2,
              waypointBuffer := updateBuffer fb.1 env.vehicleLocation st.minDistance,
              targetRoadOption := target.2 },
          control)

/-- `run_step(debug, target_speed)`: replenish when applicable, return the
hard stop on an empty queue, otherwise buffer, control and purge. -/
def runStep (env : StepEnv) (st : PlannerState) (targetSpeed : Option ℚ) :
    Option (PlannerState × VehicleControl) :=
  match replenishPhase env st with
  | none => none
  | some st1 =>
    if st1.waypointsQueue.length = 0 then some (st1, hardStop)
    else controlPhase env st1 targetSpeed

/-! Concrete fixtures used by witnesses and counterexamples. -/

/-- A waypoint at position `(x, y)` with heading `yaw`. -/
def wAt (x y yaw : ℚ) : Waypoint := ⟨⟨⟨x, y⟩, ⟨yaw⟩⟩⟩

/-- A waypoint graph that always offers exactly one continuation. -/
def cSrcOne : WaypointSource := ⟨fun _ _ => [wAt 0 0 0]⟩

/-- A waypoint graph with no continuations anywhere (dead-end road). -/
def cSrcNone : WaypointSource := ⟨fun _ _ => []⟩

/-- A fixed randomness oracle. -/
def cRnd : ℕ → ℕ := fun _ => 0

/-- A controller returning a fixed, recognisable command (throttle ½,
no brake) that differs from the hard stop. -/
def cCtrl : Controller :=
  ⟨fun _ _ _ _ =>
    { steer := 0, throttle := 1 / 2, brake := 0,
      hand_brake := false, manual_gear_shift := false }⟩

/-- The vehicle sitting at the origin. -/
def cLoc0 : Location := ⟨0, 0⟩

/-- A full concrete environment. -/
def cEnv : StepEnv := ⟨cSrcOne, cRnd, cCtrl, fun _ => wAt 0 0 0, cLoc0⟩

/-- EXTERNAL-mode planner with empty queue and empty buffer, parameters as
initialised for the default 30 km/h speed. -/
def cStExternalEmpty : PlannerState :=
  ⟨30, 25 / 3, 35 / 6, [], [], RoadOption.LANEFOLLOW, true⟩

/-- EXTERNAL-mode planner with an empty long queue whose buffer still
holds one waypoint 100 units from the origin — far beyond the minimum
distance 35/6. -/
def cexDoneSt : PlannerState :=
  ⟨30, 25 / 3, 35 / 6, [], [(wAt 100 0 0, RoadOption.LANEFOLLOW)],
   RoadOption.LANEFOLLOW, true⟩

/-- AUTONOMOUS-mode planner with a short, non-empty queue. -/
def cStAuto : PlannerState :=
  ⟨30, 25 / 3, 35 / 6, [(wAt 0 0 0, RoadOption.LANEFOLLOW)], [],
   RoadOption.LANEFOLLOW, false⟩

/-- Planner whose buffer is non-empty before a plan is injected. -/
def cBufSt : PlannerState :=
  ⟨30, 25 / 3, 35 / 6, [], [(wAt 1 0 0, RoadOption.LANEFOLLOW)],
   RoadOption.LANEFOLLOW, false⟩

/-! Helper lemmas. -/

/-- Appending to a deque that still has room is a plain append. -/
lemma dequeAppend_of_lt (q : List Entry) (e : Entry)
    (h : q.length < QUEUE_MAXLEN) :
    dequeAppend QUEUE_MAXLEN q e = q ++ [e] := by
  unfold dequeAppend
  exact if_pos h

/-- Appending to a full deque drops the oldest (head) element. -/
lemma dequeAppend_of_full (q : List Entry) (e : Entry)
    (h : ¬ q.length < QUEUE_MAXLEN) :
    dequeAppend QUEUE_MAXLEN q e = q.drop 1 ++ [e] := by
  unfold dequeAppend
  exact if_neg h

/-- Folding deque appends over a plan that fits in the remaining capacity
is a plain append. -/
lemma foldl_dequeAppend_eq_append :
    ∀ (plan q : List Entry), q.length + plan.length ≤ QUEUE_MAXLEN →
      plan.foldl (dequeAppend QUEUE_MAXLEN) q = q ++ plan := by
  intro plan
  induction plan with
  | nil => intro q _; simp
  | cons e rest ih =>
    intro q h
    simp only [List.length_cons] at h
    have hlt : q.length < QUEUE_MAXLEN := by omega
    rw [List.foldl_cons, dequeAppend_of_lt q e hlt,
        ih (q ++ [e]) (by simp only [List.length_append, List.length_cons,
          List.length_nil]; omega)]
    simp

/-- Folding deque appends over an arbitrary plan keeps the most recent
`QUEUE_MAXLEN` entries of queue-then-plan, dropping from the head. -/
lemma foldl_dequeAppend_drop :
    ∀ (plan q : List Entry), q.length ≤ QUEUE_MAXLEN →
      plan.foldl (dequeAppend QUEUE_MAXLEN) q =
        (q ++ plan).drop (q.length + plan.length - QUEUE_MAXLEN) := by
  intro plan
  induction plan with
  | nil =>
    intro q h
    simp [Nat.sub_eq_zero_of_le h]
  | cons e rest ih =>
    intro q h
    rw [List.foldl_cons]
    by_cases hlt : q.length < QUEUE_MAXLEN
    · rw [dequeAppend_of_lt q e hlt,
        ih (q ++ [e]) (by simp only [List.length_append, List.length_cons,
          List.length_nil]; omega),
        List.append_assoc]
      simp only [List.singleton_append, List.length_append, List.length_cons,
        List.length_nil]
      have hidx : q.length + 0 + 1 + rest.length - QUEUE_MAXLEN =
          q.length + (rest.length + 1) - QUEUE_MAXLEN := by omega
      rw [hidx]
    · have heq : q.length = QUEUE_MAXLEN := le_antisymm h (not_lt.1 hlt)
      have hpos : 0 < QUEUE_MAXLEN := by unfold QUEUE_MAXLEN; omega
      obtain ⟨a, q', rfl⟩ : ∃ a q', q = a :: q' := by
        cases q with
        | nil => simp only [List.length_nil] at heq; omega
        | cons a q' => exact ⟨a, q', rfl⟩
      simp only [List.length_cons] at heq h
      rw [dequeAppend_of_full (a :: q') e hlt]
      simp only [List.drop_succ_cons, List.drop_zero]
      rw [ih (q' ++ [e]) (by simp only [List.length_append, List.length_cons,
            List.length_nil]; omega),
        List.append_assoc]
      simp only [List.singleton_append, List.cons_append, List.drop_succ_cons,
        List.length_append, List.length_cons, List.length_nil]
      have h1 : q'.length + 0 + 1 + rest.length - QUEUE_MAXLEN = rest.length := by
        omega
      have h2 : q'.length + 1 + (rest.length + 1) - QUEUE_MAXLEN = rest.length + 1 := by
        omega
      rw [h1, h2, List.drop_succ_cons, List.nil_append]

/-! Claim theorems. -/

/-- C5: the RoadOption classifier is a pure, total, deterministic function
of the two yaws; with `diffAngle = ((next.yaw mod 360) − (current.yaw mod
360)) mod 180` it returns STRAIGHT when `diffAngle < 1.0`, LEFT when
`diffAngle > 90.0`, and RIGHT otherwise; `diffAngle = 1.0` and
`diffAngle = 90.0` both classify RIGHT. -/
theorem computeConnection_spec (current_waypoint next_waypoint : Waypoint) :
    (diffAngle current_waypoint next_waypoint < 1 →
       computeConnection current_waypoint next_waypoint = RoadOption.STRAIGHT) ∧
    (90 < diffAngle current_waypoint next_waypoint →
       computeConnection current_waypoint next_waypoint = RoadOption.LEFT) ∧
    (1 ≤ diffAngle current_waypoint next_waypoint →
       diffAngle current_waypoint next_waypoint ≤ 90 →
       computeConnection current_waypoint next_waypoint = RoadOption.RIGHT) ∧
    (diffAngle current_waypoint next_waypoint = 1 →
       computeConnection current_waypoint next_waypoint = RoadOption.RIGHT) ∧
    (diffAngle current_waypoint next_waypoint = 90 →
       computeConnection current_waypoint next_waypoint = RoadOption.RIGHT) ∧
    (∀ c2 n2 : Waypoint,
       c2.transform.rotation.yaw = current_waypoint.transform.rotation.yaw →
       n2.transform.rotation.yaw = next_waypoint.transform.rotation.yaw →
       computeConnection c2 n2 = computeConnection current_waypoint next_waypoint) := by
  refine ⟨?_, ?_, ?_, ?_, ?_, ?_⟩
  · intro h
    rw [computeConnection, if_pos h]
  · intro h
    have h1 : ¬ diffAngle current_waypoint next_waypoint < 1 := by linarith
    rw [computeConnection, if_neg h1, if_pos h]
  · intro h1 h2
    rw [computeConnection, if_neg (not_lt.2 h1), if_neg (not_lt.2 h2)]
  · intro h
    rw [computeConnection, h]
    norm_num
  · intro h
    rw [computeConnection, h]
    norm_num
  · intro c2 n2 hc hn
    simp only [computeConnection, diffAngle, hc, hn]

/-- Witness for C5: concrete classifications, including both boundary
values. -/
theorem computeConnection_spec_witness :
    (diffAngle (wAt 0 0 0) (wAt 0 0 0) < 1 ∧
       computeConnection (wAt 0 0 0) (wAt 0 0 0) = RoadOption.STRAIGHT) ∧
    (90 < diffAngle (wAt 0 0 0) (wAt 0 0 91) ∧
       computeConnection (wAt 0 0 0) (wAt 0 0 91) = RoadOption.LEFT) ∧
    (diffAngle (wAt 0 0 0) (wAt 0 0 1) = 1 ∧
       computeConnection (wAt 0 0 0) (wAt 0 0 1) = RoadOption.RIGHT) ∧
    (diffAngle (wAt 0 0 0) (wAt 0 0 90) = 90 ∧
       computeConnection (wAt 0 0 0) (wAt 0 0 90) = RoadOption.RIGHT) := by
  have h1 : diffAngle (wAt 0 0 0) (wAt 0 0 0) < 1 := by
    norm_num [diffAngle, fmod, wAt]
  have h2 : 90 < diffAngle (wAt 0 0 0) (wAt 0 0 91) := by
    norm_num [diffAngle, fmod, wAt]
  have h3 : diffAngle (wAt 0 0 0) (wAt 0 0 1) = 1 := by
    norm_num [diffAngle, fmod, wAt]
  have h4 : diffAngle (wAt 0 0 0) (wAt 0 0 90) = 90 := by
    norm_num [diffAngle, fmod, wAt]
  exact ⟨⟨h1, (computeConnection_spec _ _).1 h1⟩,
         ⟨h2, (computeConnection_spec _ _).2.1 h2⟩,
         ⟨h3, (computeConnection_spec _ _).2.2.2.1 h3⟩,
         ⟨h4, (computeConnection_spec _ _).2.2.2.2.1 h4⟩⟩

/-- C1 (code bug): at a state with an empty long queue and a buffer
holding one waypoint far beyond the minimum distance, `done()` returns
`true` — its `all(...)` comprehension ranges over the (empty)
`_waypoints_queue`, not the buffer — although the claim requires `false`
there. -/
theorem doneCheck_at_failing_input :
    doneCheck cexDoneSt cLoc0 = true ∧
    cexDoneSt.waypointsQueue.length = 0 ∧
    cexDoneSt.waypointBuffer.length = 1 ∧
    cexDoneSt.waypointBuffer.all
      (fun wp => withinMinDistance wp.1 cLoc0 cexDoneSt.minDistance) = false := by
  refine ⟨rfl, rfl, rfl, ?_⟩
  norm_num [cexDoneSt, withinMinDistance, dist2, wAt, cLoc0]

/-- C4 (amended): `setLocalPlan` and `setGlobalPlan` clear only the long
queue before appending; after the call the queue holds exactly the
injected entries in order (for plans within capacity), while the short
buffer is left untouched rather than cleared. -/
theorem setPlan_clears_queue_only (st : PlannerState) (plan : List Entry)
    (hp : plan.length ≤ QUEUE_MAXLEN) :
    (setLocalPlan st plan).waypointsQueue = plan ∧
    (setLocalPlan st plan).waypointBuffer = st.waypointBuffer ∧
    (setLocalPlan st plan).globalPlan = false ∧
    (setLocalPlan st plan).targetRoadOption = RoadOption.CHANGELANELEFT ∧
    (setGlobalPlan st plan).waypointsQueue = plan ∧
    (setGlobalPlan st plan).waypointBuffer = st.waypointBuffer ∧
    (setGlobalPlan st plan).globalPlan = true ∧
    (setGlobalPlan st plan).targetRoadOption = RoadOption.LANEFOLLOW := by
  have hfold : plan.foldl (dequeAppend QUEUE_MAXLEN) [] = plan := by
    have h := foldl_dequeAppend_eq_append plan []
      (by simpa using hp)
    simpa using h
  refine ⟨?_, rfl, rfl, rfl, ?_, rfl, rfl, rfl⟩
  · simp [setLocalPlan, hfold]
  · simp [setGlobalPlan, addGlobalPlan, hfold]

/-- Counterexample to C4 as stated: injecting a one-entry plan into a
planner whose buffer holds an entry leaves the buffer non-empty (length 1,
not 0) after both `setLocalPlan` and `setGlobalPlan`. -/
theorem setPlan_cex :
    (setLocalPlan cBufSt [(wAt 5 0 0, RoadOption.STRAIGHT)]).waypointBuffer.length = 1 ∧
    (setGlobalPlan cBufSt [(wAt 5 0 0, RoadOption.STRAIGHT)]).waypointBuffer.length = 1 ∧
    (setLocalPlan cBufSt [(wAt 5 0 0, RoadOption.STRAIGHT)]).waypointsQueue =
      [(wAt 5 0 0, RoadOption.STRAIGHT)] :=
  ⟨rfl, rfl, rfl⟩

/-- Witness for C4 (amended) at a concrete planner and plan. -/
theorem setPlan_clears_queue_only_witness :
    ([(wAt 5 0 0, RoadOption.STRAIGHT)] : List Entry).length ≤ QUEUE_MAXLEN ∧
    (setLocalPlan cBufSt [(wAt 5 0 0, RoadOption.STRAIGHT)]).waypointsQueue =
      [(wAt 5 0 0, RoadOption.STRAIGHT)] ∧
    (setGlobalPlan cBufSt [(wAt 5 0 0, RoadOption.STRAIGHT)]).waypointBuffer =
      cBufSt.waypointBuffer := by
  have hp : ([(wAt 5 0 0, RoadOption.STRAIGHT)] : List Entry).length ≤ QUEUE_MAXLEN := by
    norm_num [QUEUE_MAXLEN]
  have h := setPlan_clears_queue_only cBufSt [(wAt 5 0 0, RoadOption.STRAIGHT)] hp
  exact ⟨hp, h.1, h.2.2.2.2.2.1⟩

/-- C10: `addGlobalPlan` never lets the queue exceed the capacity 20000;
when the appended plan overflows the remaining capacity, the oldest
entries are silently evicted from the head (deque `maxlen` semantics) with
no error and no report to the caller; plans that fit are appended
verbatim. -/
theorem addGlobalPlan_bounded (st : PlannerState) (plan : List Entry)
    (hcap : st.waypointsQueue.length ≤ QUEUE_MAXLEN) :
    (addGlobalPlan st plan).waypointsQueue =
        (st.waypointsQueue ++ plan).drop
          (st.waypointsQueue.length + plan.length - QUEUE_MAXLEN) ∧
    (addGlobalPlan st plan).waypointsQueue.length ≤ QUEUE_MAXLEN ∧
    (addGlobalPlan st plan).globalPlan = true ∧
    (st.waypointsQueue.length + plan.length ≤ QUEUE_MAXLEN →
       (addGlobalPlan st plan).waypointsQueue = st.waypointsQueue ++ plan) := by
  have h1 : (addGlobalPlan st plan).waypointsQueue =
      (st.waypointsQueue ++ plan).drop
        (st.waypointsQueue.length + plan.length - QUEUE_MAXLEN) := by
    simp only [addGlobalPlan]
    exact foldl_dequeAppend_drop plan st.waypointsQueue hcap
  refine ⟨h1, ?_, rfl, ?_⟩
  · rw [h1, List.length_drop, List.length_append]
    omega
  · intro hfit
    simp only [addGlobalPlan]
    exact foldl_dequeAppend_eq_append plan st.waypointsQueue hfit

/-- Witness for C10 at a concrete planner and plan. -/
theorem addGlobalPlan_bounded_witness :
    cStAuto.waypointsQueue.length ≤ QUEUE_MAXLEN ∧
    (addGlobalPlan cStAuto [(wAt 5 0 0, RoadOption.STRAIGHT)]).waypointsQueue.length ≤
      QUEUE_MAXLEN ∧
    (addGlobalPlan cStAuto [(wAt 5 0 0, RoadOption.STRAIGHT)]).globalPlan = true := by
  have hcap : cStAuto.waypointsQueue.length ≤ QUEUE_MAXLEN := by
    norm_num [cStAuto, QUEUE_MAXLEN]
  have h := addGlobalPlan_bounded cStAuto [(wAt 5 0 0, RoadOption.STRAIGHT)] hcap
  exact ⟨hcap, h.2.1, h.2.2.1⟩

/-- When no element qualifies, the `update_buffer` scan leaves the
accumulator untouched. -/
lemma lastWithinIndexAux_of_none (loc : Location) (md : ℚ) :
    ∀ (l : List Entry) (i : ℕ) (acc : Option ℕ),
      (∀ e ∈ l, withinMinDistance e.1 loc md = false) →
      lastWithinIndexAux loc md l i acc = acc := by
  intro l
  induction l with
  | nil => intro i acc _; rfl
  | cons e rest ih =>
    intro i acc h
    have he : withinMinDistance e.1 loc md = false := h e (by simp)
    simp only [lastWithinIndexAux]
    rw [if_neg (by simp [he])]
    exact ih (i + 1) acc (fun e2 h2 => h e2 (by simp [h2]))

/-- The `update_buffer` scan returns (offset by `i`) the largest index
whose entry qualifies, whatever the incoming accumulator. -/
lemma lastWithinIndexAux_of_last (loc : Location) (md : ℚ) :
    ∀ (l : List Entry) (j : ℕ) (hj : j < l.length) (i : ℕ) (acc : Option ℕ),
      withinMinDistance (l.get ⟨j, hj⟩).1 loc md = true →
      (∀ j2 (hj2 : j2 < l.length), j < j2 →
         withinMinDistance (l.get ⟨j2, hj2⟩).1 loc md = false) →
      lastWithinIndexAux loc md l i acc = some (i + j) := by
  intro l
  induction l with
  | nil => intro j hj; exact absurd hj (by simp)
  | cons e rest ih =>
    intro j hj i acc hwithin hafter
    cases j with
    | zero =>
      have he : withinMinDistance e.1 loc md = true := hwithin
      simp only [lastWithinIndexAux]
      rw [if_pos (by simp [he])]
      have hrest : ∀ e2 ∈ rest, withinMinDistance e2.1 loc md = false := by
        intro e2 hmem
        obtain ⟨⟨k, hk⟩, heq⟩ := List.mem_iff_get.1 hmem
        subst heq
        exact hafter (k + 1) (by simp only [List.length_cons]; omega) (by omega)
      rw [lastWithinIndexAux_of_none loc md rest (i + 1) (some i) hrest]
      simp
    | succ j2 =>
      have hj2 : j2 < rest.length := by
        simp only [List.length_cons] at hj; omega
      have hw2 : withinMinDistance (rest.get ⟨j2, hj2⟩).1 loc md = true := hwithin
      have hafter2 : ∀ j3 (hj3 : j3 < rest.length), j2 < j3 →
          withinMinDistance (rest.get ⟨j3, hj3⟩).1 loc md = false := by
        intro j3 hj3 hgt
        exact hafter (j3 + 1) (by simp only [List.length_cons]; omega) (by omega)
      simp only [lastWithinIndexAux]
      rw [ih j2 hj2 (i + 1) _ hw2 hafter2]
      have harith : i + 1 + j2 = i + (j2 + 1) := by omega
      rw [harith]

/-- C8: `update_buffer` pops exactly the head segment ending at the last
buffer index whose waypoint lies within the minimum distance of the
vehicle, keeps the remaining entries in order (the result is a suffix of
the buffer, so no purged entry reappears), and leaves the buffer unchanged
when no entry qualifies. -/
theorem updateBuffer_spec (buffer : List Entry) (loc : Location) (md : ℚ) :
    (updateBuffer buffer loc md <:+ buffer) ∧
    (buffer.all (fun e => !withinMinDistance e.1 loc md) = true →
       updateBuffer buffer loc md = buffer) ∧
    (∀ i (hi : i < buffer.length),
       withinMinDistance (buffer.get ⟨i, hi⟩).1 loc md = true →
       (∀ j (hj : j < buffer.length), i < j →
          withinMinDistance (buffer.get ⟨j, hj⟩).1 loc md = false) →
       updateBuffer buffer loc md = buffer.drop (i + 1)) := by
  refine ⟨?_, ?_, ?_⟩
  · unfold updateBuffer
    cases lastWithinIndex buffer loc md with
    | none => exact List.suffix_refl _
    | some k => exact List.drop_suffix _ _
  · intro hall
    have hnone : ∀ e ∈ buffer, withinMinDistance e.1 loc md = false := by
      intro e he
      have h2 := List.all_eq_true.1 hall e he
      simpa using h2
    unfold updateBuffer lastWithinIndex
    rw [lastWithinIndexAux_of_none loc md buffer 0 none hnone]
  · intro i hi hw hafter
    unfold updateBuffer lastWithinIndex
    rw [lastWithinIndexAux_of_last loc md buffer i hi 0 none hw hafter]
    simp

/-- The two-entry buffer used by the C8 witness: one waypoint one unit
from the origin (within distance 6), one 100 units away (not within). -/
def cNearFarBuf : List Entry :=
  [(wAt 1 0 0, RoadOption.LANEFOLLOW), (wAt 100 0 0, RoadOption.LANEFOLLOW)]

/-- Witness for C8: with the vehicle at the origin and minimum distance 6,
the purge pops exactly the first entry. -/
theorem updateBuffer_spec_witness :
    withinMinDistance (wAt 1 0 0) cLoc0 6 = true ∧
    withinMinDistance (wAt 100 0 0) cLoc0 6 = false ∧
    updateBuffer cNearFarBuf cLoc0 6 = cNearFarBuf.drop 1 ∧
    updateBuffer cNearFarBuf cLoc0 6 = [(wAt 100 0 0, RoadOption.LANEFOLLOW)] := by
  have hnear : withinMinDistance (wAt 1 0 0) cLoc0 6 = true := by
    norm_num [withinMinDistance, dist2, wAt, cLoc0]
  have hfar : withinMinDistance (wAt 100 0 0) cLoc0 6 = false := by
    norm_num [withinMinDistance, dist2, wAt, cLoc0]
  have hi : 0 < cNearFarBuf.length := by norm_num [cNearFarBuf]
  have hw : withinMinDistance (cNearFarBuf.get ⟨0, hi⟩).1 cLoc0 6 = true := hnear
  have hafter : ∀ j (hj : j < cNearFarBuf.length), 0 < j →
      withinMinDistance (cNearFarBuf.get ⟨j, hj⟩).1 cLoc0 6 = false := by
    intro j hj hpos
    have hlen : cNearFarBuf.length = 2 := rfl
    rw [hlen] at hj
    have hj1 : j = 1 := by omega
    subst hj1
    exact hfar
  have hdrop := (updateBuffer_spec cNearFarBuf cLoc0 6).2.2 0 hi hw hafter
  exact ⟨hnear, hfar, hdrop, hdrop.trans rfl⟩

/-- C9: `set_speed` changes only the stored target cruise speed; the
sampling radius and minimum-distance threshold are computed once by
`init_controller` from the construction-time target speed and are left
unchanged by any later `set_speed` call. -/
theorem setSpeed_frame (src : WaypointSource) (rnd : ℕ → ℕ) (w : Waypoint)
    (optSpeed : Option ℚ) (st : PlannerState) (v : ℚ)
    (hinit : initController src rnd w optSpeed = some st) :
    (setSpeed st v).targetSpeed = v ∧
    (setSpeed st v).samplingRadius = st.samplingRadius ∧
    (setSpeed st v).minDistance = st.minDistance ∧
    (setSpeed st v).waypointsQueue = st.waypointsQueue ∧
    (setSpeed st v).waypointBuffer = st.waypointBuffer ∧
    (setSpeed st v).targetRoadOption = st.targetRoadOption ∧
    (setSpeed st v).globalPlan = st.globalPlan ∧
    st.samplingRadius = initRadius (optSpeed.getD 30) ∧
    st.minDistance = initMinDistance (optSpeed.getD 30) ∧
    (setSpeed st v).samplingRadius = initRadius (optSpeed.getD 30) ∧
    (setSpeed st v).minDistance = initMinDistance (optSpeed.getD 30) := by
  have hfields : st.samplingRadius = initRadius (optSpeed.getD 30) ∧
      st.minDistance = initMinDistance (optSpeed.getD 30) := by
    simp only [initController] at hinit
    split at hinit
    · exact absurd hinit (by simp)
    · split at hinit
      · exact absurd hinit (by simp)
      · rw [Option.some.injEq] at hinit
        subst hinit
        exact ⟨rfl, rfl⟩
  exact ⟨rfl, rfl, rfl, rfl, rfl, rfl, rfl, hfields.1, hfields.2,
         hfields.1, hfields.2⟩

/-- Fallback state used only to extract the value of a successful
`initController` run. -/
def cJunk : PlannerState := ⟨0, 0, 0, [], [], RoadOption.VOID, false⟩

/-- The planner state actually produced by `initController` on the
always-one-continuation graph with default options. -/
def cInitSt : PlannerState :=
  (initController cSrcOne cRnd (wAt 0 0 0) none).getD cJunk

/-- Witness for C9: a concrete successful initialisation followed by
`setSpeed 50`. -/
theorem setSpeed_frame_witness :
    initController cSrcOne cRnd (wAt 0 0 0) none = some cInitSt ∧
    (setSpeed cInitSt 50).targetSpeed = 50 ∧
    (setSpeed cInitSt 50).samplingRadius = initRadius 30 ∧
    (setSpeed cInitSt 50).minDistance = initMinDistance 30 := by
  have hinit : initController cSrcOne cRnd (wAt 0 0 0) none = some cInitSt := rfl
  have h := setSpeed_frame cSrcOne cRnd (wAt 0 0 0) none cInitSt 50 hinit
  exact ⟨hinit, h.1, h.2.2.2.2.2.2.2.2.2.1, h.2.2.2.2.2.2.2.2.2.2⟩

/-- When every 3.0-unit look-ahead succeeds, `_retrieve_options` returns
one RoadOption per candidate. -/
lemma retrieveOptions_map_length (src : WaypointSource) (cw : Waypoint)
    (hsrc : ∀ w d, 0 < (src.next w d).length) :
    ∀ l : List Waypoint, (retrieveOptions src cw l).map List.length = some l.length := by
  intro l
  induction l with
  | nil => rfl
  | cons w rest ih =>
    have h0 := hsrc w 3
    simp only [retrieveOptions]
    cases hsn : src.next w 3 with
    | nil => rw [hsn] at h0; simp at h0
    | cons a as =>
      obtain ⟨opts, hopts, hlen⟩ := Option.map_eq_some'.1 ih
      simp [hopts, hlen]

/-- `list.index` of a present element is a valid index. -/
lemma indexOfOption_lt (o : RoadOption) :
    ∀ l : List RoadOption, o ∈ l → indexOfOption o l < l.length := by
  intro l
  induction l with
  | nil => intro h; simp at h
  | cons x rest ih =>
    intro h
    by_cases hx : x = o
    · simp [indexOfOption, hx]
    · simp only [indexOfOption, if_neg hx, List.length_cons]
      have hmem : o ∈ rest := by
        rcases List.mem_cons.1 h with h1 | h1
        · exact absurd h1.symm hx
        · exact h1
      exact Nat.succ_lt_succ (ih hmem)

/-- When every look-ahead query yields at least one candidate and the
queue is non-empty and not full, one loop iteration of
`_compute_next_waypoints` appends exactly one entry at the tail. -/
lemma computeNextWaypointsStep_succeeds (src : WaypointSource) (sr : ℚ)
    (r : ℕ) (q : List Entry)
    (hsrc : ∀ w d, 0 < (src.next w d).length) (hq : q ≠ [])
    (hlen : q.length < QUEUE_MAXLEN) :
    ∃ e, computeNextWaypointsStep src sr r q = some (q ++ [e]) := by
  rcases List.eq_nil_or_concat q with hnil | ⟨as, a, rfl⟩
  · exact absurd hnil hq
  · simp only [List.concat_eq_append] at hlen ⊢
    simp only [computeNextWaypointsStep, List.getLast?_concat]
    have h0 := hsrc a.1 sr
    rcases hsn : src.next a.1 sr with _ | ⟨w1, _ | ⟨w2, ws⟩⟩
    · rw [hsn] at h0; simp at h0
    · simp only [List.length_cons, List.length_nil, List.get?, if_true]
      exact ⟨(w1, RoadOption.LANEFOLLOW),
        by rw [dequeAppend_of_lt _ _ hlen]⟩
    · rw [if_neg (by simp only [List.length_cons]; omega)]
      obtain ⟨opts, hopts, hoptslen⟩ :=
        Option.map_eq_some'.1 (retrieveOptions_map_length src a.1 hsrc (w1 :: w2 :: ws))
      rw [hopts]
      dsimp only
      have hpos : 0 < opts.length := by
        rw [hoptslen]; simp
      have hmodlt : r % opts.length < opts.length := Nat.mod_lt _ hpos
      rw [List.get?_eq_get hmodlt]
      dsimp only
      have hidx : indexOfOption (opts.get ⟨r % opts.length, hmodlt⟩) opts <
          (w1 :: w2 :: ws).length := by
        rw [← hoptslen]
        exact indexOfOption_lt _ opts (List.get_mem opts _ _)
      rw [List.get?_eq_get hidx]
      dsimp only
      exact ⟨((w1 :: w2 :: ws).get ⟨_, hidx⟩, opts.get ⟨r % opts.length, hmodlt⟩),
        by rw [dequeAppend_of_lt _ _ hlen]⟩

/-- The `_compute_next_waypoints` loop, under the same preconditions,
appends exactly one entry per iteration and only ever extends the queue at
the tail. -/
lemma computeLoop_spec (src : WaypointSource) (sr : ℚ) (rnd : ℕ → ℕ)
    (hsrc : ∀ w d, 0 < (src.next w d).length) :
    ∀ (n i : ℕ) (q : List Entry), q ≠ [] → q.length + n ≤ QUEUE_MAXLEN →
      (computeLoop src sr rnd n i q).map List.length = some (q.length + n) ∧
      ∀ q2, computeLoop src sr rnd n i q = some q2 → q <+: q2 := by
  intro n
  induction n with
  | zero =>
    intro i q hq hcap
    refine ⟨by simp [computeLoop], ?_⟩
    intro q2 h
    simp only [computeLoop, Option.some.injEq] at h
    subst h
    exact ⟨[], by simp⟩
  | succ m ih =>
    intro i q hq hcap
    have hlt : q.length < QUEUE_MAXLEN := by omega
    obtain ⟨e, he⟩ := computeNextWaypointsStep_succeeds src sr (rnd i) q hsrc hq hlt
    simp only [computeLoop, he]
    have hne : q ++ [e] ≠ [] := by simp
    have hcap2 : (q ++ [e]).length + m ≤ QUEUE_MAXLEN := by
      simp only [List.length_append, List.length_cons, List.length_nil]; omega
    obtain ⟨ihlen, ihpre⟩ := ih (i + 1) (q ++ [e]) hne hcap2
    constructor
    · exact ihlen.trans (congrArg some
        (by simp only [List.length_append, List.length_cons, List.length_nil]; omega))
    · intro q2 h
      obtain ⟨t, ht⟩ := ihpre q2 h
      exact ⟨[e] ++ t, by rw [← List.append_assoc]; exact ht⟩

/-- C7 (amended): when every look-ahead query returns at least one
candidate and the queue is non-empty, `_compute_next_waypoints(k)` appends
exactly `min(capacity - len, k)` entries at the tail, and the queue length
never exceeds the capacity. -/
theorem computeNextWaypoints_appends (src : WaypointSource) (sr : ℚ)
    (rnd : ℕ → ℕ) (q : List Entry) (k : ℕ)
    (hsrc : ∀ w d, 0 < (src.next w d).length)
    (hq : 0 < q.length) (hcap : q.length ≤ QUEUE_MAXLEN) :
    (computeNextWaypoints src sr rnd q k).map List.length =
        some (q.length + min (QUEUE_MAXLEN - q.length) k) ∧
    ∀ q2, computeNextWaypoints src sr rnd q k = some q2 →
      q <+: q2 ∧ q2.length ≤ QUEUE_MAXLEN := by
  have hne : q ≠ [] := List.length_pos.1 hq
  have hcap2 : q.length + min (QUEUE_MAXLEN - q.length) k ≤ QUEUE_MAXLEN := by
    omega
  obtain ⟨hlen, hpre⟩ := computeLoop_spec src sr rnd hsrc
    (min (QUEUE_MAXLEN - q.length) k) 0 q hne hcap2
  refine ⟨hlen, ?_⟩
  intro q2 h
  refine ⟨hpre q2 h, ?_⟩
  rw [computeNextWaypoints] at h
  rw [h] at hlen
  simp only [Option.map_some', Option.some.injEq] at hlen
  omega

/-- Counterexample to C7 as stated: on an empty queue — allowed by the
claim, whose precondition about look-ahead queries the one-candidate graph
satisfies — `_compute_next_waypoints(1)` raises (`deque[-1]` on an empty
deque) instead of appending `min(1, 20000) = 1` entry. -/
theorem computeNextWaypoints_emptyQueue_cex :
    computeNextWaypoints cSrcOne 3 cRnd [] 1 = none ∧
    (cSrcOne.next (wAt 0 0 0) 3).length = 1 :=
  ⟨rfl, rfl⟩

/-- Witness for C7 (amended) on a one-entry queue with `k = 2`. -/
theorem computeNextWaypoints_appends_witness :
    (computeNextWaypoints cSrcOne 3 cRnd
        [(wAt 0 0 0, RoadOption.LANEFOLLOW)] 2).map List.length = some 3 ∧
    ([(wAt 0 0 0, RoadOption.LANEFOLLOW)] : List Entry).length = 1 := by
  have hsrc : ∀ w d, 0 < (cSrcOne.next w d).length := fun _ _ => Nat.one_pos
  have h := computeNextWaypoints_appends cSrcOne 3 cRnd
    [(wAt 0 0 0, RoadOption.LANEFOLLOW)] 2 hsrc (by norm_num)
    (by norm_num [QUEUE_MAXLEN])
  exact ⟨h.1.trans (by norm_num [QUEUE_MAXLEN]), rfl⟩

/-- C3 (amended): when the source returns zero candidates for the last
queue entry, `_compute_next_waypoints` does not stop silently — the
zero-candidate case falls into the multiple-options branch, where
`random.choice` over the empty options list raises `IndexError`
(modelled as `none`). -/
theorem computeNextWaypoints_zeroCandidates (src : WaypointSource) (sr : ℚ)
    (rnd : ℕ → ℕ) (q : List Entry) (k : ℕ) (e : Entry)
    (hlast : q.getLast? = some e) (hzero : src.next e.1 sr = [])
    (hk : 0 < k) (hcap : q.length < QUEUE_MAXLEN) :
    computeNextWaypoints src sr rnd q k = none := by
  obtain ⟨m, hm⟩ : ∃ m, min (QUEUE_MAXLEN - q.length) k = m + 1 :=
    ⟨min (QUEUE_MAXLEN - q.length) k - 1, by omega⟩
  simp only [computeNextWaypoints, hm, computeLoop, computeNextWaypointsStep,
    hlast, hzero, retrieveOptions]
  rfl

/-- Counterexample to C3 as stated: at a dead end (zero candidates
everywhere) `_compute_next_waypoints(5)` on a one-entry queue errors
(`none`) rather than returning with the queue unchanged. -/
theorem computeNextWaypoints_deadEnd_cex :
    computeNextWaypoints cSrcNone 3 cRnd
        [(wAt 0 0 0, RoadOption.LANEFOLLOW)] 5 = none ∧
    cSrcNone.next (wAt 0 0 0) 3 = [] :=
  ⟨rfl, rfl⟩

/-- Witness for C3 (amended) at a concrete dead-end queue. -/
theorem computeNextWaypoints_zeroCandidates_witness :
    ([(wAt 0 0 0, RoadOption.LANEFOLLOW)] : List Entry).getLast? =
        some (wAt 0 0 0, RoadOption.LANEFOLLOW) ∧
    cSrcNone.next (wAt 0 0 0) 3 = [] ∧
    computeNextWaypoints cSrcNone 3 cRnd
        [(wAt 0 0 0, RoadOption.LANEFOLLOW)] 5 = none := by
  refine ⟨rfl, rfl, ?_⟩
  exact computeNextWaypoints_zeroCandidates cSrcNone 3 cRnd
    [(wAt 0 0 0, RoadOption.LANEFOLLOW)] 5 (wAt 0 0 0, RoadOption.LANEFOLLOW)
    rfl rfl (by norm_num) (by norm_num [QUEUE_MAXLEN])

/-- C2 (amended): after the replenish phase, `run_step` returns the
hard-stop command — steer 0, throttle 0, brake 1, no hand brake, no manual
gear, independent of the requested target speed — exactly on the test
"long queue empty"; the short buffer is not consulted. With a non-empty
queue it refills the buffer from the queue, invokes the controller and
returns the controller's command. -/
theorem runStep_hardStop_amended (env : StepEnv) (st : PlannerState)
    (ts : Option ℚ) (st1 : PlannerState)
    (h : replenishPhase env st = some st1) :
    (st1.waypointsQueue.length = 0 →
       ∀ ts2, runStep env st ts2 = some (st1, hardStop)) ∧
    (∀ e, 0 < st1.waypointsQueue.length →
       (bufferFill st1.waypointBuffer st1.waypointsQueue).1.head? = some e →
       runStep env st ts = some
         ({ st1 with
              waypointsQueue := (bufferFill st1.waypointBuffer st1.waypointsQueue).2,
              waypointBuffer := updateBuffer
                (bufferFill st1.waypointBuffer st1.waypointsQueue).1
                env.vehicleLocation st1.minDistance,
              targetRoadOption := e.2 },
          env.controller.runStep (ts.getD st1.targetSpeed)
            (windowOf (bufferFill st1.waypointBuffer st1.waypointsQueue).1)
            e.1 (env.mapWaypointAt env.vehicleLocation))) := by
  constructor
  · intro hempty ts2
    unfold runStep
    rw [h]
    dsimp only
    rw [if_pos hempty]
  · intro e hpos hhead
    unfold runStep
    rw [h]
    dsimp only
    rw [if_neg (by omega)]
    unfold controlPhase
    dsimp only
    rw [hhead]

/-- Counterexample to C2 as stated: with an empty long queue but a
non-empty short buffer, `run_step` still returns the hard stop (it only
tests the queue) instead of the controller's command — the claim requires
both containers empty for the hard stop. -/
theorem runStep_emptyQueue_nonemptyBuffer_cex :
    runStep cEnv cexDoneSt (some 50) = some (cexDoneSt, hardStop) ∧
    cexDoneSt.waypointBuffer.length = 1 ∧
    cexDoneSt.waypointsQueue.length = 0 ∧
    hardStop.throttle = 0 ∧ hardStop.brake = 1 ∧
    (cEnv.controller.runStep 50 (windowOf cexDoneSt.waypointBuffer)
        (wAt 100 0 0) (wAt 0 0 0)).brake = 0 :=
  ⟨rfl, rfl, rfl, rfl, rfl, rfl⟩

/-- EXTERNAL-mode planner with a one-entry queue and empty buffer. -/
def cStExtQ : PlannerState :=
  ⟨30, 25 / 3, 6, [(wAt 1 0 0, RoadOption.LANEFOLLOW)], [],
   RoadOption.LANEFOLLOW, true⟩

/-- Witness for C2 (amended): the hard-stop case on an all-empty planner
and the controller case on a one-entry queue. -/
theorem runStep_hardStop_amended_witness :
    replenishPhase cEnv cStExternalEmpty = some cStExternalEmpty ∧
    runStep cEnv cStExternalEmpty none = some (cStExternalEmpty, hardStop) ∧
    replenishPhase cEnv cStExtQ = some cStExtQ ∧
    runStep cEnv cStExtQ none = some
      ({ cStExtQ with
           waypointsQueue := (bufferFill cStExtQ.waypointBuffer cStExtQ.waypointsQueue).2,
           waypointBuffer := updateBuffer
             (bufferFill cStExtQ.waypointBuffer cStExtQ.waypointsQueue).1
             cEnv.vehicleLocation cStExtQ.minDistance,
           targetRoadOption := RoadOption.LANEFOLLOW },
       cEnv.controller.runStep 30
         (windowOf (bufferFill cStExtQ.waypointBuffer cStExtQ.waypointsQueue).1)
         (wAt 1 0 0) (cEnv.mapWaypointAt cEnv.vehicleLocation)) := by
  have h1 : replenishPhase cEnv cStExternalEmpty = some cStExternalEmpty := rfl
  have h2 : replenishPhase cEnv cStExtQ = some cStExtQ := rfl
  have hhead : (bufferFill cStExtQ.waypointBuffer cStExtQ.waypointsQueue).1.head? =
      some (wAt 1 0 0, RoadOption.LANEFOLLOW) := rfl
  have hc := (runStep_hardStop_amended cEnv cStExtQ none cStExtQ h2).2
    (wAt 1 0 0, RoadOption.LANEFOLLOW) Nat.one_pos hhead
  exact ⟨h1,
    (runStep_hardStop_amended cEnv cStExternalEmpty none cStExternalEmpty h1).1 rfl none,
    h2, hc⟩

/-- C6: in EXTERNAL mode (`_global_plan = True`, as set by injecting a
plan wholesale) `run_step` never refills the long queue by sampling — the
replenish phase is the identity, the step's outcome is independent of the
waypoint graph and of the randomness oracle, the queue only shrinks (the
new queue is a suffix of the old), and the mode persists to every
subsequent step; in AUTONOMOUS mode every step whose queue is below half
capacity runs `_compute_next_waypoints(k=100)`, and no step at or above
half capacity does. -/
theorem runStep_mode_invariant (env : StepEnv) (st : PlannerState) (ts : Option ℚ) :
    (st.globalPlan = true →
       replenishPhase env st = some st ∧
       (∀ (src2 : WaypointSource) (rnd2 : ℕ → ℕ),
          runStep { env with source := src2, rnd := rnd2 } st ts = runStep env st ts) ∧
       (∀ p, runStep env st ts = some p →
          p.1.waypointsQueue <:+ st.waypointsQueue ∧ p.1.globalPlan = true)) ∧
    (st.globalPlan = false →
       (st.waypointsQueue.length < QUEUE_MAXLEN / 2 →
          replenishPhase env st =
            (computeNextWaypoints env.source st.samplingRadius env.rnd
                st.waypointsQueue 100).map
              (fun q => { st with waypointsQueue := q })) ∧
       (QUEUE_MAXLEN / 2 ≤ st.waypointsQueue.length →
          replenishPhase env st = some st)) := by
  constructor
  · intro hg
    have hrep : replenishPhase env st = some st := by
      unfold replenishPhase
      rw [if_neg (by simp [hg])]
    have hrep2 : ∀ (src2 : WaypointSource) (rnd2 : ℕ → ℕ),
        replenishPhase { env with source := src2, rnd := rnd2 } st = some st := by
      intro src2 rnd2
      unfold replenishPhase
      rw [if_neg (by simp [hg])]
    refine ⟨hrep, ?_, ?_⟩
    · intro src2 rnd2
      unfold runStep
      rw [hrep, hrep2 src2 rnd2]
      rfl
    · intro p hp
      unfold runStep at hp
      rw [hrep] at hp
      dsimp only at hp
      by_cases hq : st.waypointsQueue.length = 0
      · rw [if_pos hq] at hp
        simp only [Option.some.injEq] at hp
        subst hp
        exact ⟨List.suffix_refl _, hg⟩
      · rw [if_neg hq] at hp
        unfold controlPhase at hp
        dsimp only at hp
        cases hh : (bufferFill st.waypointBuffer st.waypointsQueue).1.head? with
        | none => rw [hh] at hp; simp at hp
        | some e =>
          rw [hh] at hp
          dsimp only at hp
          simp only [Option.some.injEq] at hp
          subst hp
          constructor
          · show st.waypointsQueue.drop
                (min (BUFFER_SIZE - st.waypointBuffer.length)
                  st.waypointsQueue.length) <:+ st.waypointsQueue
            exact List.drop_suffix _ _
          · exact hg
  · intro hg
    constructor
    · intro hlt
      unfold replenishPhase
      rw [if_pos ⟨hg, hlt⟩]
    · intro hge
      unfold replenishPhase
      rw [if_neg (fun hc => absurd hc.2 (by omega))]

/-- Witness for C6: the EXTERNAL branch on a concrete empty planner (with
the dead-end graph substituted) and the AUTONOMOUS branch on a concrete
short queue. -/
theorem runStep_mode_invariant_witness :
    replenishPhase cEnv cStExternalEmpty = some cStExternalEmpty ∧
    runStep { cEnv with source := cSrcNone, rnd := cRnd } cStExternalEmpty none =
      runStep cEnv cStExternalEmpty none ∧
    replenishPhase cEnv cStAuto =
      (computeNextWaypoints cEnv.source cStAuto.samplingRadius cEnv.rnd
          cStAuto.waypointsQueue 100).map
        (fun q => { cStAuto with waypointsQueue := q }) := by
  have h := runStep_mode_invariant cEnv cStExternalEmpty none
  have h2 := runStep_mode_invariant cEnv cStAuto none
  exact ⟨(h.1 rfl).1, (h.1 rfl).2.1 cSrcNone cRnd,
         (h2.2 rfl).1 (by norm_num [cStAuto, QUEUE_MAXLEN])⟩

end LocalPlannerSpec
